import Mathlib

/-!
# SovereignShare: verification of the signaling relay and transfer protocol

Shallow embedding of the SovereignShare repository:

* `backend/server.js` — the relay: identity registry (`details` handler),
  signal forwarding (`send-signal`, `accept-signal`), disconnect cleanup.
* `frontend/app.js` and the unnamed client variant (`part_003`) — the
  client-side session logic: pending ICE-candidate queue, connection
  timeout timer, chunked file transfer (sender loop and receiver
  reassembly).

JavaScript `Map`s are modelled as functions into `Option`; socket.io
emissions are modelled as an explicit emission list; JS values that flow
through truthiness checks are modelled by the inductive `JSVal`.
-/

/-- A JavaScript value as far as the relay's checks observe it:
`undefined`, `null`, booleans, numbers (modelled as integers; the relay
never does arithmetic on them) and strings.  Only these shapes reach the
truthiness and `typeof` checks in `server.js`. -/
inductive JSVal where
  | undef : JSVal
  | nullv : JSVal
  | bool (b : Bool) : JSVal
  | num (n : Int) : JSVal
  | str (s : String) : JSVal
deriving DecidableEq

/-- JavaScript truthiness for the modelled values: `undefined`, `null`,
`false`, `0` and `""` are falsy. -/
def JSVal.truthy : JSVal → Bool
  | .undef => false
  | .nullv => false
  | .bool b => b
  | .num n => n ≠ 0
  | .str s => s ≠ ""

/-- `typeof v === 'string'`. -/
def JSVal.isString : JSVal → Bool
  | .str _ => true
  | _ => false

/-- The string carried by a string value (only used under an `isString`
guard, where it is exact). -/
def JSVal.asString : JSVal → String
  | .str s => s
  | _ => ""

/-- The relay's registry state (`server.js` lines 36–38):
`userRegistry : socketId -> uniqueId`, `idRegistry : uniqueId -> socketId`,
`connectionTimes : uniqueId -> timestamp`.  JS `Map.get` is function
application, `Map.set`/`Map.delete` are pointwise updates. -/
structure Registry where
  userRegistry : Nat → Option String
  idRegistry : String → Option Nat
  connectionTimes : String → Option Nat

/-- The empty registry at server start. -/
def Registry.init : Registry :=
  { userRegistry := fun _ => none
    idRegistry := fun _ => none
    connectionTimes := fun _ => none }

/-- `idRegistry.get(to)` where `to` is an arbitrary JS value: the map is
keyed by the strings supplied at registration, so a non-string key never
hits an entry. -/
def Registry.idLookup (s : Registry) (v : JSVal) : Option Nat :=
  match v with
  | .str k => s.idRegistry k
  | _ => none

/-- Messages the relay emits to clients.  Payload fields that the relay
treats as opaque stay `JSVal`; the relay-assigned timestamp is dropped
from the model (no handler reads it back). -/
inductive ServerMsg where
  | errorMsg (message : String) : ServerMsg
  | errorTarget (message : String) (targetId : JSVal) : ServerMsg
  | registered (uniqueId : String) (socketId : Nat) : ServerMsg
  | signaling (fromId : JSVal) (signalData : JSVal) (toId : JSVal) : ServerMsg
  | callAccepted (signalData : JSVal) (toId : JSVal) : ServerMsg
  | userDisconnected (userId : String) : ServerMsg
deriving DecidableEq

/-- One socket.io emission.  `direct` is `socket.emit` (to the handling
socket itself), `room` is `socket.to(target).emit` (delivered to `target`
unless `target` is the sender — socket.io excludes the sender from
`socket.to` broadcasts), `broadcast` is `socket.broadcast.emit` (everyone
but the sender). -/
inductive Emit where
  | direct (target : Nat) (msg : ServerMsg) : Emit
  | room (sender target : Nat) (msg : ServerMsg) : Emit
  | broadcast (sender : Nat) (msg : ServerMsg) : Emit
deriving DecidableEq

/-- Whether an emission is delivered to the connection `sid`. -/
def Emit.deliveredTo : Emit → Nat → Bool
  | .direct t _, sid => t = sid
  | .room s t _, sid => t = sid && s ≠ sid
  | .broadcast s _, sid => s ≠ sid

/-- The `details` registration handler (`server.js` lines 78–115).
`live` models `io.sockets.sockets` membership (whether the old socket is
still open), `now` the registration timestamp.  The handler rejects a
missing / non-string / empty `uniqueId`; on a duplicate identity it
deletes the old socket's `userRegistry` entry (and only that) before
overwriting all three maps for the new pair. -/
def handleDetails (live : Nat → Bool) (s : Registry) (socketId : Nat)
    (uniqueId : JSVal) (now : Nat) : Registry × List Emit :=
  if !uniqueId.truthy || !uniqueId.isString then
    (s, [Emit.direct socketId (ServerMsg.errorMsg "Invalid user ID format")])
  else
    let uid := uniqueId.asString
    let cleaned : Registry × List Emit :=
      match s.idRegistry uid with
      | some existingSocketId =>
          ({ s with userRegistry := fun h =>
               if h = existingSocketId then none else s.userRegistry h },
           if live existingSocketId then
             [Emit.direct existingSocketId
                (ServerMsg.errorMsg "Connection replaced by new session")]
           else [])
      | none => (s, [])
    let s2 : Registry :=
      { userRegistry := fun h =>
          if h = socketId then some uid else cleaned.1.userRegistry h
        idRegistry := fun i =>
          if i = uid then some socketId else cleaned.1.idRegistry i
        connectionTimes := fun i =>
          if i = uid then some now else cleaned.1.connectionTimes i }
    (s2, cleaned.2 ++ [Emit.direct socketId (ServerMsg.registered uid socketId)])

/-- The `disconnect` handler (`server.js` lines 285–309): if the socket
was registered, remove all three map entries and broadcast
`userDisconnected`; otherwise do nothing. -/
def handleDisconnect (s : Registry) (socketId : Nat) : Registry × List Emit :=
  match s.userRegistry socketId with
  | some uniqueId =>
      ({ userRegistry := fun h =>
           if h = socketId then none else s.userRegistry h
         idRegistry := fun i =>
           if i = uniqueId then none else s.idRegistry i
         connectionTimes := fun i =>
           if i = uniqueId then none else s.connectionTimes i },
       [Emit.broadcast socketId (ServerMsg.userDisconnected uniqueId)])
  | none => (s, [])

/-- JS strict equality `senderUniqueId === from` between the result of
`userRegistry.get(socket.id)` (a registered string or `undefined`) and
the claimed `from` value. -/
def jsStrictEq : Option String → JSVal → Bool
  | some a, .str b => a = b
  | none, .undef => true
  | _, _ => false

/-- The payload of a `send-signal` message: `{ from, to, signalData }`.
(`from` is a Lean keyword, hence the field names `fromId` / `toId`.) -/
structure SignalData where
  fromId : JSVal
  toId : JSVal
  signalData : JSVal
deriving DecidableEq

/-- The `send-signal` handler (`server.js` lines 118–158): reject a
malformed envelope, reject a `from` that does not match the sender's
registered identity, then resolve `to` and either forward `signaling`
to the target socket or report `Target user not found or offline` with
the intended recipient. -/
def handleSendSignal (s : Registry) (socketId : Nat) (d : SignalData) :
    Registry × List Emit :=
  if !d.fromId.truthy || !d.toId.truthy || !d.signalData.truthy then
    (s, [Emit.direct socketId (ServerMsg.errorMsg "Invalid signal data format")])
  else if !(jsStrictEq (s.userRegistry socketId) d.fromId) then
    (s, [Emit.direct socketId (ServerMsg.errorMsg "Identity verification failed")])
  else
    match s.idLookup d.toId with
    | some targetSocketId =>
        (s, [Emit.room socketId targetSocketId
              (ServerMsg.signaling d.fromId d.signalData d.toId)])
    | none =>
        (s, [Emit.direct socketId
              (ServerMsg.errorTarget "Target user not found or offline" d.toId)])

/-- The payload of an `accept-signal` message: `{ to, signalData }` —
note the protocol carries no `from` field on this path. -/
structure AcceptData where
  toId : JSVal
  signalData : JSVal
deriving DecidableEq

/-- The `accept-signal` handler (`server.js` lines 161–192): reject a
malformed payload, then resolve `to` and forward `callAccepted` — there
is no identity verification on this path. -/
def handleAcceptSignal (s : Registry) (socketId : Nat) (d : AcceptData) :
    Registry × List Emit :=
  if !d.toId.truthy || !d.signalData.truthy then
    (s, [Emit.direct socketId
          (ServerMsg.errorMsg "Invalid accept signal data format")])
  else
    match s.idLookup d.toId with
    | some targetSocketId =>
        (s, [Emit.room socketId targetSocketId
              (ServerMsg.callAccepted d.signalData d.toId)])
    | none =>
        (s, [Emit.direct socketId
              (ServerMsg.errorTarget "Target user not found for accept signal" d.toId)])

/-! ## Chunked transfer protocol (client side)

Sender: `sendFile` in `app.js` (lines 727–786) / `part_003` (lines
581–641).  Receiver: `handleFileInfo` / `handleFileChunk` /
`handleFileComplete` (identical in both clients).  Bytes are modelled as
`List Nat`. -/

/-- `this.chunkSize = 16 * 1024`. -/
def chunkSize : Nat := 16 * 1024

/-- `Math.ceil(file.size / this.chunkSize)` (exact for the integer sizes
a file can have). -/
def totalChunksOf (fileSize : Nat) : Nat :=
  (fileSize + chunkSize - 1) / chunkSize

/-- `file.slice(start, end)` as a byte list. -/
def listSlice (l : List Nat) (s e : Nat) : List Nat :=
  (l.drop s).take (e - s)

/-- Metadata sent in `fileInfo` / `fileComplete` frames. -/
structure FileMeta where
  fileName : String
  fileSize : Nat
  fileType : String
deriving DecidableEq

/-- The JSON-tagged frames multiplexed over the data channel. -/
inductive Frame where
  | chat (text : String) : Frame
  | fileInfo (meta : FileMeta) (totalChunks : Nat) : Frame
  | fileChunk (chunk : List Nat) (chunkIndex totalChunks : Nat) : Frame
  | fileComplete (meta : FileMeta) : Frame
deriving DecidableEq

/-- The frame sequence produced by the sender's `sendFile` for a file of
content `bytes`: one `fileInfo`, then for `i = 0 .. totalChunks-1` the
chunk `file.slice(i*chunkSize, min(i*chunkSize+chunkSize, file.size))`
with its index, then one `fileComplete`. -/
def sendFileFrames (fileName fileType : String) (bytes : List Nat) : List Frame :=
  let totalChunks := totalChunksOf bytes.length
  let meta : FileMeta := ⟨fileName, bytes.length, fileType⟩
  (Frame.fileInfo meta totalChunks ::
    (List.range totalChunks).map (fun i =>
      Frame.fileChunk
        (listSlice bytes (i * chunkSize) (min (i * chunkSize + chunkSize) bytes.length))
        i totalChunks)) ++ [Frame.fileComplete meta]

/-- The receiver's finalized file (`this.currentFile` after
`handleFileComplete`): a `Blob` of the buffered chunks is their
concatenation in buffer order. -/
structure ReceivedFile where
  name : String
  ftype : String
  size : Nat
  blobBytes : List Nat
deriving DecidableEq

/-- Receiver-side state: the chunk buffer `this.fileChunks`, the last
`fileInfo` (with its announced `totalChunks`), the finalized
`this.currentFile`, and the `showNotification` messages issued (observed
to check what the receiver reports). -/
structure ReceiverState where
  fileChunks : List (List Nat)
  fileInfo : Option (FileMeta × Nat)
  currentFile : Option ReceivedFile
  notices : List String
deriving DecidableEq

/-- Fresh receiver. -/
def ReceiverState.init : ReceiverState := ⟨[], none, none, []⟩

/-- `handleDataChannelMessage` dispatch with the four frame handlers, as
written in both clients: `fileInfo` records metadata and resets the
buffer; `fileChunk` appends the carried bytes to the buffer — the
`chunkIndex` field is never read; `fileComplete` finalizes
`currentFile` from whatever is buffered, clears the buffer and reports
success.  No index or count verification occurs anywhere. -/
def handleFrame (s : ReceiverState) : Frame → ReceiverState
  | .chat _ => s
  | .fileInfo meta totalChunks =>
      { s with fileInfo := some (meta, totalChunks), fileChunks := [] }
  | .fileChunk chunk _ _ =>
      { s with fileChunks := s.fileChunks ++ [chunk] }
  | .fileComplete meta =>
      { s with
        currentFile := some ⟨meta.fileName, meta.fileType, meta.fileSize, s.fileChunks.flatten⟩
        fileChunks := []
        notices := s.notices ++ ["File received successfully!"] }

/-- Process a list of inbound frames in order. -/
def processFrames (s : ReceiverState) (fs : List Frame) : ReceiverState :=
  fs.foldl handleFrame s

/-! ## Pending ICE-candidate queue

`part_003`: `handleIncomingSignal` (lines 366–390) buffers a candidate
in `pendingIceCandidates` when no remote description is set, and both
`acceptIncomingCall` (lines 392–440) and `handlesignaling` (lines
450–487) drain the queue in order immediately after
`setRemoteDescription`, then clear it.  Candidates are identified by
`Nat` tokens; `applied` records, in order, the candidates handed to
`addIceCandidate`. -/

/-- Client ICE-handling state for the `part_003` client. -/
structure IceState where
  remoteDescSet : Bool
  pendingIceCandidates : List Nat
  applied : List Nat
deriving DecidableEq

/-- Events relevant to the queue: a candidate arrives, or a remote
description is set (accept path or answer path — the drain code is the
same). -/
inductive IceEvent where
  | candidate (c : Nat) : IceEvent
  | setRemoteDesc : IceEvent
deriving DecidableEq

/-- One event step of the `part_003` client: an arriving candidate is
applied if the remote description is set, otherwise pushed; setting the
remote description applies all pending candidates in queue order and
clears the queue. -/
def iceStep (s : IceState) : IceEvent → IceState
  | .candidate c =>
      if s.remoteDescSet then { s with applied := s.applied ++ [c] }
      else { s with pendingIceCandidates := s.pendingIceCandidates ++ [c] }
  | .setRemoteDesc =>
      { remoteDescSet := true
        pendingIceCandidates := []
        applied := s.applied ++ s.pendingIceCandidates }

/-- Run a whole event sequence from the fresh session state. -/
def iceRun (evs : List IceEvent) : IceState :=
  evs.foldl iceStep ⟨false, [], []⟩

/-- The candidates of an event sequence, in arrival order. -/
def candidatesOf (evs : List IceEvent) : List Nat :=
  evs.filterMap (fun e => match e with | .candidate c => some c | .setRemoteDesc => none)

/-- `handleIceCandidate` of `frontend/app.js` (lines 588–594): the only
candidate handling in that client.  It applies the candidate when
`this.peerConnection` exists and otherwise does nothing — there is no
pending queue in this client, so the returned applied list is the entire
candidate-related state. -/
def handleIceCandidate (peerConnectionExists : Bool) (applied : List Nat)
    (candidate : Option Nat) : List Nat :=
  match candidate with
  | some c => if peerConnectionExists then applied ++ [c] else applied
  | none => applied

/-! ## Connection timeout timer

`part_003`: `initiateConnection` (line 199) and `acceptIncomingCall`
(line 397) each do `this.connectionTimeout = setTimeout(cb, 30000)`
without clearing a previously stored timer; `clearConnectionTimeout`
(lines 291–296) cancels only the stored handle.  The timeout callback
shows the timeout notification and calls `resetConnectionState` (which
clears the stored handle), with no guard on the connection state.
`dataChannel.onopen` (lines 321–327) sets `isConnected` and clears the
stored timer; the `connectionstatechange` handler does the same on
`'connected'`.

The model tracks the set of armed-and-unfired runtime timers (`live`),
the stored handle, whether the channel has connected, how many times the
timeout callback ran, and whether it ever ran after the channel
connected. -/

/-- Timer-related client state plus the observations needed. -/
structure TimerState where
  nextId : Nat
  live : List Nat
  connectionTimeout : Option Nat
  connected : Bool
  timeoutFirings : Nat
  firedWhileConnected : Bool
deriving DecidableEq

/-- Fresh session. -/
def TimerState.init : TimerState := ⟨0, [], none, false, 0, false⟩

/-- Events: arming the 30-second timer (`setTimeout` assigned to
`this.connectionTimeout`), the channel reaching connected (which runs
`clearConnectionTimeout`), and the runtime firing of timer `id` (only
possible while `id` is live). -/
inductive TimerEvent where
  | arm : TimerEvent
  | chanOpen : TimerEvent
  | fire (id : Nat) : TimerEvent
deriving DecidableEq

/-- `clearConnectionTimeout()`: cancel the stored handle, if any. -/
def clearConnectionTimeout (s : TimerState) : TimerState :=
  match s.connectionTimeout with
  | some id => { s with live := s.live.erase id, connectionTimeout := none }
  | none => s

/-- One step.  Arming stores a fresh runtime timer, silently orphaning
any previously stored one.  A fire of a live timer runs the callback:
it counts as a timeout firing (notification + `resetConnectionState`)
and, via `resetConnectionState`, clears the stored handle. -/
def timerStep (s : TimerState) : TimerEvent → TimerState
  | .arm =>
      { s with nextId := s.nextId + 1
               live := s.live ++ [s.nextId]
               connectionTimeout := some s.nextId }
  | .chanOpen =>
      clearConnectionTimeout { s with connected := true }
  | .fire id =>
      if id ∈ s.live then
        clearConnectionTimeout
          { s with live := s.live.erase id
                   timeoutFirings := s.timeoutFirings + 1
                   firedWhileConnected := s.firedWhileConnected || s.connected }
      else s

/-- Run an event sequence from a fresh session. -/
def timerRun (evs : List TimerEvent) : TimerState :=
  evs.foldl timerStep TimerState.init

/-! ## Registration sequences (for the registry theorems) -/

/-- Registering `(handle, id)` through the `details` handler: the
registry after `handleDetails` for socket `e.1` asserting identity
`e.2`.  The `live` predicate and timestamp only influence emissions and
`connectionTimes`, not the two identity maps. -/
def applyReg (s : Registry) (e : Nat × String) : Registry :=
  (handleDetails (fun _ => true) s e.1 (JSVal.str e.2) 0).1

/-- Process a whole registration sequence in order. -/
def applyRegs (s : Registry) (evs : List (Nat × String)) : Registry :=
  evs.foldl applyReg s

/-- The handle supplied by the most recent registration of `id` in
`evs`, if `id` was registered at all. -/
def lastHandleOf (id : String) (evs : List (Nat × String)) : Option Nat :=
  match evs with
  | [] => none
  | e :: rest =>
      match lastHandleOf id rest with
      | some h => some h
      | none => if e.2 = id then some e.1 else none

/-! ## Concrete states used by witnesses and counterexamples -/

/-- Socket 0 registered as `AAAAAAAAAA`. -/
def exampleRegistryA : Registry :=
  (handleDetails (fun _ => true) Registry.init 0 (JSVal.str "AAAAAAAAAA") 0).1

/-- Socket 0 registered as `AAAAAAAAAA`, socket 1 as `BBBBBBBBBB`. -/
def exampleRegistryAB : Registry :=
  (handleDetails (fun _ => true) exampleRegistryA 1 (JSVal.str "BBBBBBBBBB") 1).1

/-- The registry after socket 0 registers `AAAAAAAAAA` and then, on the
same connection, registers `BBBBBBBBBB`. -/
def rebindRegistry : Registry :=
  (handleDetails (fun _ => true) exampleRegistryA 0 (JSVal.str "BBBBBBBBBB") 1).1

/-- The receiver-side frame sequence of the gap scenario: a 4-chunk
file whose chunk 2 is dropped in transit, so chunks 0, 1 and 3 arrive,
followed by the sender's `fileComplete`. -/
def gapFrames : List Frame :=
  [Frame.fileInfo ⟨"doc.bin", 4, "application/octet-stream"⟩ 4,
   Frame.fileChunk [10] 0 4,
   Frame.fileChunk [11] 1 4,
   Frame.fileChunk [13] 3 4,
   Frame.fileComplete ⟨"doc.bin", 4, "application/octet-stream"⟩]

/-! # Theorems -/

/-- **C10.**  Registration is atomic on error: a `details` request whose
`uniqueId` is absent (`undefined`) or not a string is answered with
exactly one error emission to the requesting socket, and all three
registry maps are left exactly as they were; the mutation code is only
reached by requests carrying a valid (truthy) string `uniqueId`. -/
theorem details_invalid_uniqueId_atomic (live : Nat → Bool) (s : Registry)
    (socketId now : Nat) (v : JSVal)
    (h : v = JSVal.undef ∨ v.isString = false) :
    handleDetails live s socketId v now =
      (s, [Emit.direct socketId (ServerMsg.errorMsg "Invalid user ID format")]) := by
  have hcond : (!v.truthy || !v.isString) = true := by
    rcases h with h | h
    · subst h; rfl
    · simp [h]
  simp [handleDetails, hcond]

/-- Witness for `details_invalid_uniqueId_atomic`: a registration with a
missing `uniqueId` on the empty registry. -/
theorem details_invalid_uniqueId_atomic_witness :
    handleDetails (fun _ => true) Registry.init 0 JSVal.undef 0 =
      (Registry.init, [Emit.direct 0 (ServerMsg.errorMsg "Invalid user ID format")]) :=
  details_invalid_uniqueId_atomic (fun _ => true) Registry.init 0 0 JSVal.undef (Or.inl rfl)

/-- **C8.**  A `send-signal` envelope missing (falsy) `from`, `to` or
`signalData` is rejected synchronously: the sender gets exactly one
validation error, nothing is forwarded to any other connection, and the
registry state is unchanged. -/
theorem sendSignal_malformed_rejected (s : Registry) (socketId : Nat) (d : SignalData)
    (h : d.fromId.truthy = false ∨ d.toId.truthy = false ∨ d.signalData.truthy = false) :
    handleSendSignal s socketId d =
      (s, [Emit.direct socketId (ServerMsg.errorMsg "Invalid signal data format")]) := by
  have hcond : (!d.fromId.truthy || !d.toId.truthy || !d.signalData.truthy) = true := by
    rcases h with h | h | h <;> simp [h]
  simp [handleSendSignal, hcond]

/-- Witness for `sendSignal_malformed_rejected`: an envelope with a
missing payload. -/
theorem sendSignal_malformed_rejected_witness :
    handleSendSignal exampleRegistryAB 0
        ⟨JSVal.str "AAAAAAAAAA", JSVal.str "BBBBBBBBBB", JSVal.undef⟩ =
      (exampleRegistryAB,
       [Emit.direct 0 (ServerMsg.errorMsg "Invalid signal data format")]) :=
  sendSignal_malformed_rejected exampleRegistryAB 0 _ (Or.inr (Or.inr rfl))

/-- **C6.**  A well-formed envelope from an authentic sender whose `to`
identity is not registered is delivered to no client connection, and the
sender receives exactly one error naming the intended recipient. -/
theorem sendSignal_target_not_found (s : Registry) (socketId : Nat) (d : SignalData)
    (hf : d.fromId.truthy = true) (ht : d.toId.truthy = true)
    (hp : d.signalData.truthy = true)
    (hid : jsStrictEq (s.userRegistry socketId) d.fromId = true)
    (hto : s.idLookup d.toId = none) :
    handleSendSignal s socketId d =
      (s, [Emit.direct socketId
            (ServerMsg.errorTarget "Target user not found or offline" d.toId)]) ∧
    ∀ sid : Nat, sid ≠ socketId →
      (handleSendSignal s socketId d).2.all (fun e => !e.deliveredTo sid) = true := by
  have hmain : handleSendSignal s socketId d =
      (s, [Emit.direct socketId
            (ServerMsg.errorTarget "Target user not found or offline" d.toId)]) := by
    simp [handleSendSignal, hf, ht, hp, hid, hto]
  refine ⟨hmain, ?_⟩
  intro sid hsid
  rw [hmain]
  simp [Emit.deliveredTo, Ne.symm hsid]

/-- Witness for `sendSignal_target_not_found`: registered client
`AAAAAAAAAA` signals never-registered `ZZZZZZZZZZ`. -/
theorem sendSignal_target_not_found_witness :
    handleSendSignal exampleRegistryAB 0
        ⟨JSVal.str "AAAAAAAAAA", JSVal.str "ZZZZZZZZZZ", JSVal.str "offer"⟩ =
      (exampleRegistryAB,
       [Emit.direct 0 (ServerMsg.errorTarget "Target user not found or offline"
          (JSVal.str "ZZZZZZZZZZ"))]) :=
  (sendSignal_target_not_found exampleRegistryAB 0
    ⟨JSVal.str "AAAAAAAAAA", JSVal.str "ZZZZZZZZZZ", JSVal.str "offer"⟩
    rfl rfl rfl (by decide) (by decide)).1

/-- **C5, amended part.**  On the `send-signal` path the relay verifies
the claimed `from` against the sender's registered identity: a mismatch
is answered with exactly one identity-verification error to the sender
and nothing is forwarded. -/
theorem sendSignal_identity_mismatch_rejected (s : Registry) (socketId : Nat)
    (d : SignalData)
    (hf : d.fromId.truthy = true) (ht : d.toId.truthy = true)
    (hp : d.signalData.truthy = true)
    (hid : jsStrictEq (s.userRegistry socketId) d.fromId = false) :
    handleSendSignal s socketId d =
      (s, [Emit.direct socketId (ServerMsg.errorMsg "Identity verification failed")]) := by
  simp [handleSendSignal, hf, ht, hp, hid]

/-- Witness for `sendSignal_identity_mismatch_rejected`: socket 1,
registered as `BBBBBBBBBB`, claims to be `AAAAAAAAAA`. -/
theorem sendSignal_identity_mismatch_rejected_witness :
    handleSendSignal exampleRegistryAB 1
        ⟨JSVal.str "AAAAAAAAAA", JSVal.str "BBBBBBBBBB", JSVal.str "offer"⟩ =
      (exampleRegistryAB,
       [Emit.direct 1 (ServerMsg.errorMsg "Identity verification failed")]) :=
  sendSignal_identity_mismatch_rejected exampleRegistryAB 1
    ⟨JSVal.str "AAAAAAAAAA", JSVal.str "BBBBBBBBBB", JSVal.str "offer"⟩
    rfl rfl rfl (by decide)

/-- **C5, counterexample.**  The `accept-signal` forwarding path
performs no identity verification: an accept-signal message carries no
`from` field at all (its claimed identity is `undefined`, which differs
from the sender's registered identity), yet the relay forwards it to the
resolved target instead of emitting an identity-mismatch error.  Socket
0 is registered as `AAAAAAAAAA`; its answer payload is delivered to
socket 1 (`BBBBBBBBBB`) with no verification and no error. -/
theorem acceptSignal_forwards_without_identity_check :
    jsStrictEq (exampleRegistryAB.userRegistry 0) JSVal.undef = false ∧
    handleAcceptSignal exampleRegistryAB 0
        ⟨JSVal.str "BBBBBBBBBB", JSVal.str "answer-sdp"⟩ =
      (exampleRegistryAB,
       [Emit.room 0 1 (ServerMsg.callAccepted (JSVal.str "answer-sdp")
          (JSVal.str "BBBBBBBBBB"))]) ∧
    Emit.deliveredTo
      (Emit.room 0 1 (ServerMsg.callAccepted (JSVal.str "answer-sdp")
        (JSVal.str "BBBBBBBBBB"))) 1 = true :=
  ⟨by decide, rfl, by decide⟩

/-- **C3.**  The two registry maps are not kept mutually consistent:
after socket 0 registers `AAAAAAAAAA` and then registers `BBBBBBBBBB`
on the same connection, the identity-to-handle map still resolves
`AAAAAAAAAA` to handle 0 while the handle-to-identity map maps 0 to
`BBBBBBBBBB` — the identity→handle→identity round trip is broken, the
stale `AAAAAAAAAA` entry is never cleaned. -/
theorem rebind_breaks_registry_consistency :
    rebindRegistry.idRegistry "AAAAAAAAAA" = some 0 ∧
    rebindRegistry.userRegistry 0 = some "BBBBBBBBBB" ∧
    rebindRegistry.userRegistry 0 ≠ some "AAAAAAAAAA" :=
  ⟨by decide, by decide, by decide⟩

/-- **C4.**  The receiver performs no chunk-index verification: when
chunks 0, 1 and 3 of an announced 4-chunk file arrive followed by
`fileComplete`, the receiver finalizes a downloadable file assembled
from the incomplete chunk set and reports success — no transfer-failed
condition exists in the code. -/
theorem receiver_finalizes_file_despite_gap :
    (processFrames ReceiverState.init gapFrames).currentFile =
      some ⟨"doc.bin", "application/octet-stream", 4, [10, 11, 13]⟩ ∧
    (processFrames ReceiverState.init gapFrames).notices =
      ["File received successfully!"] :=
  ⟨by decide, by decide⟩

/-- Counting over a mapped list whose image always satisfies the
predicate counts every element. -/
theorem countP_map_const_true {α β : Type} (f : α → β) (p : β → Bool)
    (l : List α) (h : ∀ a, p (f a) = true) :
    List.countP p (l.map f) = l.length := by
  induction l with
  | nil => rfl
  | cons a t ih => simp [List.countP_cons, h, ih]

/-- General round-trip of the sender's slicing loop: concatenating the
slices `l.slice(i*cs, min(i*cs+cs, l.length))` for `i < n` restores `l`
whenever `l.length ≤ n * cs`. -/
theorem slice_chunks_flatten (cs : Nat) :
    ∀ (n : Nat) (l : List Nat), l.length ≤ n * cs →
      ((List.range n).map (fun i =>
          listSlice l (i * cs) (min (i * cs + cs) l.length))).flatten = l := by
  intro n
  induction n with
  | zero =>
      intro l hl
      rw [Nat.zero_mul, Nat.le_zero] at hl
      rw [List.eq_nil_of_length_eq_zero hl]
      rfl
  | succ n ih =>
      intro l hl
      have hlen2 : (l.drop cs).length ≤ n * cs := by
        rw [List.length_drop]
        rw [Nat.succ_mul] at hl
        omega
      have hstep : ∀ i : Nat,
          listSlice l (Nat.succ i * cs) (min (Nat.succ i * cs + cs) l.length) =
            listSlice (l.drop cs) (i * cs)
              (min (i * cs + cs) (l.drop cs).length) := by
        intro i
        simp only [listSlice, List.drop_drop, List.length_drop, Nat.succ_mul]
        rw [Nat.add_comm cs (i * cs)]
        congr 1
        generalize i * cs = a
        omega
      have h0 : listSlice l (0 * cs) (min (0 * cs + cs) l.length) = l.take cs := by
        simp only [listSlice, Nat.zero_mul, List.drop_zero, Nat.zero_add, Nat.sub_zero]
        rcases Nat.le_total l.length cs with h | h
        · rw [show min cs l.length = l.length by omega, List.take_length,
            List.take_of_length_le h]
        · rw [show min cs l.length = cs by omega]
      have hmap : List.map
            ((fun i => listSlice l (i * cs) (min (i * cs + cs) l.length)) ∘ Nat.succ)
            (List.range n) =
          List.map (fun i =>
              listSlice (l.drop cs) (i * cs) (min (i * cs + cs) (l.drop cs).length))
            (List.range n) :=
        List.map_congr_left (fun i _ => hstep i)
      rw [List.range_succ_eq_map]
      simp only [List.map_cons, List.map_map, List.flatten_cons]
      rw [h0, hmap, ih (l.drop cs) hlen2, List.take_append_drop]

/-- Folding the receiver's `fileChunk` handler over a list of chunk
frames appends exactly the carried chunk payloads, in order. -/
theorem processFrames_chunkFrames (tc : Nat) (ch : Nat → List Nat) :
    ∀ (idxs : List Nat) (s : ReceiverState),
      processFrames s (idxs.map (fun i => Frame.fileChunk (ch i) i tc)) =
        { s with fileChunks := s.fileChunks ++ idxs.map ch } := by
  intro idxs
  induction idxs with
  | nil =>
      intro s
      simp [processFrames]
  | cons i rest ih =>
      intro s
      simp only [List.map_cons, processFrames, List.foldl_cons] at ih ⊢
      rw [show handleFrame s (Frame.fileChunk (ch i) i tc) =
            { s with fileChunks := s.fileChunks ++ [ch i] } from rfl, ih]
      simp

/-- The file size never exceeds `totalChunks * chunkSize`. -/
theorem length_le_totalChunks_mul (S : Nat) : S ≤ totalChunksOf S * chunkSize := by
  have h1 := Nat.div_add_mod (S + chunkSize - 1) chunkSize
  have h2 : (S + chunkSize - 1) % chunkSize < chunkSize :=
    Nat.mod_lt _ (by decide)
  rw [totalChunksOf]
  rw [chunkSize] at h1 h2 ⊢
  omega

/-- **C1.**  Round-trip of the chunked transfer: for a file of any size
(any byte list `bytes`, covering 0, 1, `chunkSize±1`, multi-megabyte —
all sizes), the sender's `sendFile` emits `fileInfo`, then
`ceil(size/chunkSize)` chunk frames sliced at 16 KiB boundaries in
increasing index order, then `fileComplete`; the receiver, appending
chunks in arrival order and concatenating them on `fileComplete`,
finalizes a file whose byte sequence is identical to the original. -/
theorem sendFile_roundTrip (fileName fileType : String) (bytes : List Nat)
    (s : ReceiverState) :
    (processFrames s (sendFileFrames fileName fileType bytes)).currentFile =
      some ⟨fileName, fileType, bytes.length, bytes⟩ ∧
    (sendFileFrames fileName fileType bytes).countP
        (fun f => match f with | Frame.fileChunk _ _ _ => true | _ => false) =
      totalChunksOf bytes.length := by
  constructor
  · rw [sendFileFrames]
    simp only [List.cons_append, processFrames, List.foldl_cons, List.foldl_append]
    rw [show handleFrame s
          (Frame.fileInfo ⟨fileName, bytes.length, fileType⟩ (totalChunksOf bytes.length)) =
        { s with
            fileInfo := some (⟨fileName, bytes.length, fileType⟩, totalChunksOf bytes.length)
            fileChunks := [] } from rfl]
    rw [show ∀ s2 : ReceiverState,
          List.foldl handleFrame s2
            ((List.range (totalChunksOf bytes.length)).map (fun i =>
              Frame.fileChunk
                (listSlice bytes (i * chunkSize)
                  (min (i * chunkSize + chunkSize) bytes.length)) i
                (totalChunksOf bytes.length))) =
          { s2 with fileChunks := s2.fileChunks ++
              (List.range (totalChunksOf bytes.length)).map (fun i =>
                listSlice bytes (i * chunkSize)
                  (min (i * chunkSize + chunkSize) bytes.length)) } from
        fun s2 => processFrames_chunkFrames (totalChunksOf bytes.length) _
          (List.range (totalChunksOf bytes.length)) s2]
    simp only [List.foldl_cons, List.foldl_nil, List.nil_append]
    rw [show ∀ s3 : ReceiverState,
          handleFrame s3 (Frame.fileComplete ⟨fileName, bytes.length, fileType⟩) =
          { s3 with
              currentFile := some ⟨fileName, fileType, bytes.length, s3.fileChunks.flatten⟩
              fileChunks := []
              notices := s3.notices ++ ["File received successfully!"] } from
        fun s3 => rfl]
    simp only
    rw [slice_chunks_flatten chunkSize (totalChunksOf bytes.length) bytes
      (length_le_totalChunks_mul bytes.length)]
  · rw [sendFileFrames]
    simp only [List.cons_append, List.countP_cons, List.countP_append, List.countP_nil]
    rw [countP_map_const_true _ _ _ (fun a => rfl), List.length_range]
    simp

/-- Queue invariant of the `part_003` ICE handling: candidates
accumulate, in arrival order, across `applied ++ pending`; the
description flag records exactly whether a description event occurred;
and once the description is set the queue is empty. -/
theorem iceRun_invariant :
    ∀ (evs : List IceEvent) (s : IceState),
      (s.remoteDescSet = true → s.pendingIceCandidates = []) →
      ((evs.foldl iceStep s).applied ++ (evs.foldl iceStep s).pendingIceCandidates =
          (s.applied ++ s.pendingIceCandidates) ++ candidatesOf evs) ∧
      ((evs.foldl iceStep s).remoteDescSet = true ↔
          (s.remoteDescSet = true ∨ IceEvent.setRemoteDesc ∈ evs)) ∧
      ((evs.foldl iceStep s).remoteDescSet = true →
          (evs.foldl iceStep s).pendingIceCandidates = []) := by
  intro evs
  induction evs with
  | nil =>
      intro s hs
      refine ⟨by simp [candidatesOf], by simp, hs⟩
  | cons e rest ih =>
      intro s hs
      have hpres : (iceStep s e).remoteDescSet = true →
          (iceStep s e).pendingIceCandidates = [] := by
        cases e with
        | candidate c =>
            by_cases hd : s.remoteDescSet = true
            · intro _
              simp [iceStep, hd, hs hd]
            · have hds : (iceStep s (IceEvent.candidate c)).remoteDescSet =
                  s.remoteDescSet := by
                simp only [iceStep]
                split <;> rfl
              intro hcontra
              rw [hds] at hcontra
              exact absurd hcontra hd
        | setRemoteDesc => intro _; rfl
      obtain ⟨i1, i2, i3⟩ := ih (iceStep s e) hpres
      rw [List.foldl_cons]
      refine ⟨?_, ?_, i3⟩
      · rw [i1]
        cases e with
        | candidate c =>
            by_cases hd : s.remoteDescSet = true
            · simp [iceStep, hd, hs hd, candidatesOf, List.filterMap_cons]
            · simp [iceStep, hd, candidatesOf, List.filterMap_cons]
        | setRemoteDesc =>
            simp [iceStep, candidatesOf, List.filterMap_cons]
      · rw [i2]
        cases e with
        | candidate c =>
            by_cases hd : s.remoteDescSet = true <;>
              simp [iceStep, hd, List.mem_cons]
        | setRemoteDesc =>
            simp [iceStep, List.mem_cons]

/-- **C7, amended part** (the `part_003` client).  For any event
sequence in which the remote description is eventually set, every
candidate that arrived — in particular every candidate buffered before
the description was set — has been handed to `addIceCandidate` exactly
once, in exact arrival order, and the pending queue is empty. -/
theorem pendingCandidates_applied_in_order (evs : List IceEvent)
    (h : IceEvent.setRemoteDesc ∈ evs) :
    (iceRun evs).applied = candidatesOf evs ∧
    (iceRun evs).pendingIceCandidates = [] := by
  obtain ⟨i1, i2, i3⟩ :=
    iceRun_invariant evs ⟨false, [], []⟩ (fun h' => by simp at h')
  have hd : (evs.foldl iceStep ⟨false, [], []⟩).remoteDescSet = true :=
    i2.mpr (Or.inr h)
  have hp := i3 hd
  rw [iceRun]
  refine ⟨?_, hp⟩
  have := i1
  rw [hp] at this
  simpa using this

/-- Witness for `pendingCandidates_applied_in_order`: candidates 1 and 2
arrive before the description, 3 after; all three are applied once, in
order. -/
theorem pendingCandidates_applied_in_order_witness :
    (iceRun [IceEvent.candidate 1, IceEvent.candidate 2, IceEvent.setRemoteDesc,
        IceEvent.candidate 3]).applied = [1, 2, 3] ∧
    (iceRun [IceEvent.candidate 1, IceEvent.candidate 2, IceEvent.setRemoteDesc,
        IceEvent.candidate 3]).pendingIceCandidates = [] := by
  have h := pendingCandidates_applied_in_order
    [IceEvent.candidate 1, IceEvent.candidate 2, IceEvent.setRemoteDesc,
      IceEvent.candidate 3] (by decide)
  exact ⟨h.1.trans (by decide), h.2⟩

/-- **C7, counterexample** (the `frontend/app.js` client).  Its only
candidate handling, `handleIceCandidate`, has no pending queue: a hint
arriving before the peer connection exists (hence before any remote
description is set) is silently discarded — nothing buffers it and it
is never applied, contradicting the claim that every early hint is
buffered and later applied exactly once on this client too. -/
theorem appjs_early_candidate_dropped :
    handleIceCandidate false [] (some 7) = [] ∧
    handleIceCandidate true [] (some 7) = [7] :=
  ⟨rfl, rfl⟩

/-- `applyRegs` unfolding on a cons. -/
theorem applyRegs_cons (s : Registry) (e : Nat × String) (l : List (Nat × String)) :
    applyRegs s (e :: l) = applyRegs (applyReg s e) l := rfl

/-- Pointwise effect of one registration on the identity-to-handle map:
an empty identity is rejected by the handler (no-op); otherwise exactly
the registered identity's entry is overwritten — eviction never removes
`idRegistry` entries. -/
theorem applyReg_idRegistry (s : Registry) (e : Nat × String) (i : String) :
    (applyReg s e).idRegistry i =
      if e.2 = "" then s.idRegistry i
      else if i = e.2 then some e.1 else s.idRegistry i := by
  rcases e with ⟨hh, id⟩
  by_cases he : id = ""
  · subst he
    simp [applyReg, handleDetails, JSVal.truthy, JSVal.isString]
  · simp only [applyReg, handleDetails, JSVal.truthy, JSVal.isString, JSVal.asString]
    cases hm : s.idRegistry id <;> simp [hm, he]

/-- Pointwise effect of one registration on the handle-to-identity map:
an empty identity is a no-op; otherwise the registering handle is bound,
the handle currently holding the registered identity is evicted, and all
other handles keep their bindings. -/
theorem applyReg_userRegistry (s : Registry) (e : Nat × String) (h' : Nat) :
    (applyReg s e).userRegistry h' =
      if e.2 = "" then s.userRegistry h'
      else if h' = e.1 then some e.2
      else if s.idRegistry e.2 = some h' then none
      else s.userRegistry h' := by
  rcases e with ⟨hh, id⟩
  by_cases he : id = ""
  · subst he
    simp [applyReg, handleDetails, JSVal.truthy, JSVal.isString]
  · simp only [applyReg, handleDetails, JSVal.truthy, JSVal.isString, JSVal.asString]
    cases hm : s.idRegistry id with
    | none =>
        simp [hm, he]
    | some ex =>
        simp only [hm, he, if_false]
        by_cases h1 : h' = hh
        · simp [h1, he]
        · by_cases h2 : h' = ex
          · simp [h1, h2, he]
          · simp [h1, h2, he, Ne.symm h2]

/-- A registration sequence never mentioning identity `id` leaves
`idRegistry id` untouched. -/
theorem applyRegs_idRegistry_untouched :
    ∀ (l : List (Nat × String)) (s : Registry) (id : String),
      (∀ e ∈ l, e.2 ≠ id) →
      (applyRegs s l).idRegistry id = s.idRegistry id := by
  intro l
  induction l with
  | nil => intro s id _; rfl
  | cons e t ih =>
      intro s id hl
      rw [applyRegs_cons, ih _ id (fun f hf => hl f (List.mem_cons_of_mem _ hf))]
      rw [applyReg_idRegistry]
      have hne : e.2 ≠ id := hl e (List.mem_cons_self _ _)
      by_cases he : e.2 = ""
      · simp [he]
      · simp [he, Ne.symm hne]

/-- A registration sequence never using handle `h'` cannot rebind it:
once unbound, it stays unbound (evictions only delete). -/
theorem applyRegs_userRegistry_stays_none :
    ∀ (l : List (Nat × String)) (s : Registry) (h' : Nat),
      (∀ e ∈ l, e.1 ≠ h') →
      s.userRegistry h' = none →
      (applyRegs s l).userRegistry h' = none := by
  intro l
  induction l with
  | nil => intro s h' _ hs; exact hs
  | cons e t ih =>
      intro s h' hl hs
      rw [applyRegs_cons]
      refine ih _ h' (fun f hf => hl f (List.mem_cons_of_mem _ hf)) ?_
      rw [applyReg_userRegistry]
      have hne : e.1 ≠ h' := hl e (List.mem_cons_self _ _)
      by_cases he : e.2 = ""
      · simp [he, hs]
      · simp [he, Ne.symm hne, hs]

/-- If `lastHandleOf` finds nothing, the sequence has no registration of
that identity. -/
theorem lastHandleOf_none :
    ∀ (evs : List (Nat × String)) (id : String),
      lastHandleOf id evs = none → ∀ e ∈ evs, e.2 ≠ id := by
  intro evs
  induction evs with
  | nil => intro id _ e he; cases he
  | cons f rest ih =>
      intro id hl e he
      rw [lastHandleOf] at hl
      cases hrest : lastHandleOf id rest with
      | some h2 => rw [hrest] at hl; cases hl
      | none =>
          rw [hrest] at hl
          rcases List.mem_cons.mp he with rfl | hmem
          · intro hid
            rw [if_pos hid] at hl
            cases hl
          · exact ih id hrest e hmem

/-- The registry resolves `id` to the handle of the most recent
registration of `id`, whatever else the sequence contains. -/
theorem applyRegs_resolve_last (id : String) (hid : id ≠ "") :
    ∀ (evs : List (Nat × String)) (s : Registry) (h : Nat),
      lastHandleOf id evs = some h →
      (applyRegs s evs).idRegistry id = some h := by
  intro evs
  induction evs with
  | nil => intro s h hl; cases hl
  | cons e rest ih =>
      intro s h hl
      rw [lastHandleOf] at hl
      cases hrest : lastHandleOf id rest with
      | some h2 =>
          rw [hrest] at hl
          cases hl
          rw [applyRegs_cons]
          exact ih _ _ hrest
      | none =>
          rw [hrest] at hl
          by_cases he : e.2 = id
          · rw [if_pos he] at hl
            cases hl
            rw [applyRegs_cons,
              applyRegs_idRegistry_untouched rest _ id (lastHandleOf_none rest id hrest),
              applyReg_idRegistry]
            rw [he]
            simp [hid]
          · rw [if_neg he] at hl
            cases hl

/-- After an earlier registration `(h', id)`, a later registration of
`id` by a different handle evicts `h'` from the handle-to-identity map,
and it stays evicted as long as `h'` is not reused. -/
theorem applyRegs_evicts (id : String) (hid : id ≠ "") :
    ∀ (l2a : List (Nat × String)) (s : Registry) (h' h2 : Nat)
      (l2b : List (Nat × String)),
      s.idRegistry id = some h' →
      (∀ e ∈ l2a, e.2 ≠ id) → (∀ e ∈ l2a, e.1 ≠ h') → h2 ≠ h' →
      (∀ e ∈ l2b, e.1 ≠ h') →
      (applyRegs s (l2a ++ (h2, id) :: l2b)).userRegistry h' = none := by
  intro l2a s h' h2 l2b hs ha hb hc hd
  rw [applyRegs, List.foldl_append, List.foldl_cons]
  have h1 : (applyRegs s l2a).idRegistry id = some h' := by
    rw [applyRegs_idRegistry_untouched l2a s id ha]
    exact hs
  have h2step : (applyReg (applyRegs s l2a) (h2, id)).userRegistry h' = none := by
    rw [applyReg_userRegistry]
    simp [hid, Ne.symm hc, h1]
  exact applyRegs_userRegistry_stays_none l2b _ h' hd h2step

/-- **C2.**  For every sequence of registrations through the `details`
handler: (1) after the last registration of an identity `id`, `id`
resolves to the handle of that most recent registration; (2) the handle
used by an earlier registration of the same `id` — superseded by a later
registration of `id` on a different handle and not itself re-registered
afterwards — no longer maps to any identity in the handle-to-identity
direction.  (Identities are non-empty strings; an empty `uniqueId` is
rejected by the handler.) -/
theorem register_last_wins (id : String) (hid : id ≠ "") :
    (∀ (evs : List (Nat × String)) (h : Nat),
        lastHandleOf id evs = some h →
        (applyRegs Registry.init evs).idRegistry id = some h) ∧
    (∀ (l1 l2a l2b : List (Nat × String)) (h' h2 : Nat),
        (∀ e ∈ l2a, e.2 ≠ id) → (∀ e ∈ l2a, e.1 ≠ h') → h2 ≠ h' →
        (∀ e ∈ l2b, e.1 ≠ h') →
        (applyRegs Registry.init
            (l1 ++ (h', id) :: (l2a ++ (h2, id) :: l2b))).userRegistry h' = none) := by
  constructor
  · intro evs h hl
    exact applyRegs_resolve_last id hid evs Registry.init h hl
  · intro l1 l2a l2b h' h2 ha hb hc hd
    rw [applyRegs, List.foldl_append, List.foldl_cons]
    have hstart :
        (applyReg (List.foldl applyReg Registry.init l1) (h', id)).idRegistry id =
          some h' := by
      rw [applyReg_idRegistry]
      simp [hid]
    exact applyRegs_evicts id hid l2a _ h' h2 l2b hstart ha hb hc hd

/-- Witness for `register_last_wins`: handle 0 registers `AAAAAAAAAA`,
then handle 1 registers the same identity; resolution yields handle 1
and handle 0 no longer maps to any identity. -/
theorem register_last_wins_witness :
    (applyRegs Registry.init [(0, "AAAAAAAAAA"), (1, "AAAAAAAAAA")]).idRegistry
        "AAAAAAAAAA" = some 1 ∧
    (applyRegs Registry.init [(0, "AAAAAAAAAA"), (1, "AAAAAAAAAA")]).userRegistry 0 =
      none := by
  have h := register_last_wins "AAAAAAAAAA" (by decide)
  refine ⟨h.1 [(0, "AAAAAAAAAA"), (1, "AAAAAAAAAA")] 1 (by decide), ?_⟩
  have h2 := h.2 [] [] [] 0 1 (by simp) (by simp) (by decide) (by simp)
  simpa using h2

/-- Invariant of the single-armed timer: starting from any state where
at most timer 0 exists and the bookkeeping ties the stored handle, the
live set, the firing count and the connected flag together, processing
any further events without re-arming keeps the timeout callback from
running more than once or after the channel connected. -/
theorem timer_single_arm_invariant :
    ∀ (post : List TimerEvent) (s : TimerState),
      TimerEvent.arm ∉ post →
      (s.live = [] ∨ s.live = [0]) →
      (s.connectionTimeout = some 0 ∨ s.connectionTimeout = none) →
      (s.connectionTimeout = none → s.live = []) →
      s.timeoutFirings ≤ 1 →
      (s.timeoutFirings = 1 → s.live = []) →
      (s.connected = true → s.live = []) →
      s.firedWhileConnected = false →
      ((post.foldl timerStep s).timeoutFirings ≤ 1 ∧
        (post.foldl timerStep s).firedWhileConnected = false) := by
  intro post
  induction post with
  | nil =>
      intro s _ _ _ _ h4 _ _ h7
      exact ⟨h4, h7⟩
  | cons e rest ih =>
      intro s harm h1 h2 h3 h4 h5 h6 h7
      have harm' : TimerEvent.arm ∉ rest := fun h => harm (List.mem_cons_of_mem _ h)
      rw [List.foldl_cons]
      cases e with
      | arm => exact absurd (List.mem_cons_self _ _) harm
      | chanOpen =>
          have herase : s.live.erase 0 = [] := by
            rcases h1 with h1 | h1 <;> simp [h1]
          rcases h2 with h2 | h2
          · refine ih _ harm' ?_ ?_ ?_ ?_ ?_ ?_ ?_ <;>
              simp [timerStep, clearConnectionTimeout, h2, herase, h4, h7]
          · have hlive := h3 h2
            refine ih _ harm' ?_ ?_ ?_ ?_ ?_ ?_ ?_ <;>
              simp [timerStep, clearConnectionTimeout, h2, hlive, h4, h7]
      | fire id =>
          by_cases hin : id ∈ s.live
          · have hlive : s.live = [0] := by
              rcases h1 with h1 | h1
              · rw [h1] at hin
                cases hin
              · exact h1
            have hid : id = 0 := by
              rw [hlive] at hin
              simpa using hin
            subst hid
            have hstored : s.connectionTimeout = some 0 := by
              rcases h2 with h2 | h2
              · exact h2
              · rw [h3 h2] at hin
                cases hin
            have hconn : s.connected = false := by
              cases hc : s.connected
              · rfl
              · rw [h6 hc] at hin
                cases hin
            have hfire : s.timeoutFirings = 0 := by
              rcases Nat.lt_or_ge s.timeoutFirings 1 with h | h
              · omega
              · have h1' : s.timeoutFirings = 1 := by omega
                rw [h5 h1'] at hin
                cases hin
            refine ih _ harm' ?_ ?_ ?_ ?_ ?_ ?_ ?_ <;>
              simp [timerStep, clearConnectionTimeout, hin, hstored, hlive, hconn,
                hfire, h7]
          · have hstep : timerStep s (TimerEvent.fire id) = s := by
              simp [timerStep, hin]
            rw [hstep]
            exact ih _ harm' h1 h2 h3 h4 h5 h6 h7
      
/-- **C9, amended part.**  For a session whose trace arms the 30-second
timer once at the start and never re-arms it, the timeout callback runs
at most once, and it never runs after the channel has connected (the
open handler cancels the stored timer). -/
theorem timeout_single_arm (post : List TimerEvent)
    (hpost : TimerEvent.arm ∉ post) :
    (timerRun (TimerEvent.arm :: post)).timeoutFirings ≤ 1 ∧
    (timerRun (TimerEvent.arm :: post)).firedWhileConnected = false := by
  rw [timerRun, List.foldl_cons]
  refine timer_single_arm_invariant post _ hpost (Or.inr rfl) (Or.inl rfl) ?_
    (by decide) ?_ ?_ rfl
  · intro h
    cases h
  · intro h
    cases h
  · intro h
    cases h

/-- Witness for `timeout_single_arm`: arm once, then two firing
attempts of timer 0 — the callback runs at most once and the session is
not connected when it does. -/
theorem timeout_single_arm_witness :
    (timerRun [TimerEvent.arm, TimerEvent.fire 0, TimerEvent.fire 0]).timeoutFirings ≤ 1 ∧
    (timerRun [TimerEvent.arm, TimerEvent.fire 0,
        TimerEvent.fire 0]).firedWhileConnected = false :=
  timeout_single_arm [TimerEvent.fire 0, TimerEvent.fire 0] (by decide)

/-- **C9, counterexample.**  Arming a second timer (`acceptIncomingCall`
while `initiateConnection`'s timer is still pending) overwrites
`this.connectionTimeout` without clearing the first timer.  The channel
then connects — cancelling only the stored (second) timer — and the
orphaned first timer still fires: the timeout callback (timeout
notification + `resetConnectionState`) runs on the established session,
contradicting the claim that cancellation on the transition to connected
prevents any later firing. -/
theorem stale_timer_fires_after_connected :
    (timerRun [TimerEvent.arm, TimerEvent.arm, TimerEvent.chanOpen,
        TimerEvent.fire 0]).connected = true ∧
    (timerRun [TimerEvent.arm, TimerEvent.arm, TimerEvent.chanOpen,
        TimerEvent.fire 0]).firedWhileConnected = true ∧
    (timerRun [TimerEvent.arm, TimerEvent.arm, TimerEvent.chanOpen,
        TimerEvent.fire 0]).timeoutFirings = 1 := by
  decide
